import Mathlib

/-!
# DealRelay: shallow embedding of `src/app.py`

A shallow embedding of the DealRelay price tracker (a single-file Flask
application, `src/app.py`) together with proofs of its specified
properties.

The embedding covers:
* the persistence model (`Product`, `Subscription`, `DB`), mirroring the
  two SQLAlchemy tables;
* the extractor `get_product_details`, with page markup abstracted to the
  three texts the code reads (title element, price whole part, price
  fraction part) and Python `float()` parsing modelled by `pyFloat?`;
* the notifier `send_notification_email`, with the SMTP transport outcome
  passed in as an `Except` value (the code catches every exception);
* the hourly sweep `check_prices`, which also produces an event trace so
  that the order of notifications and price persists is observable;
* the `/track` endpoint `track_product`, with the final commit outcome
  passed in as a boolean (commit failure triggers a rollback).
-/

namespace DealRelay

/-- A `Product` row: `id` (integer primary key), `url` (unique),
`title`, and the last-known `price` (a Python float, modelled as `ℚ`). -/
structure Product where
  id : ℕ
  url : String
  title : String
  price : ℚ
deriving DecidableEq, Repr

/-- A `Subscription` row: `id`, `user_email`, and the foreign key
`product_id`; the schema has a unique constraint on
`(user_email, product_id)`. -/
structure Subscription where
  id : ℕ
  user_email : String
  product_id : ℕ
deriving DecidableEq, Repr

/-- The persistent store: the rows of the two tables, in insertion order. -/
structure DB where
  products : List Product
  subscriptions : List Subscription
deriving DecidableEq, Repr

/-- SQLite assigns a fresh integer primary key as one more than the
largest key in use. -/
def maxId (l : List ℕ) : ℕ := l.foldr max 0

/-- Abstraction of a fetched page: the stripped text of the element with
`id="productTitle"`, of the first element with class `a-price-whole`, and
of the first element with class `a-price-fraction` — `none` when
`soup.find` returns no element (an access then raises `AttributeError`,
which the code catches). -/
structure Page where
  productTitle : Option String
  priceWhole : Option String
  priceFraction : Option String
deriving DecidableEq, Repr

/-- Outcome of `requests.get` + `raise_for_status`: either a
`RequestException` (network failure or non-success status) or a page. -/
inductive FetchResult where
  | failure
  | success (page : Page)
deriving DecidableEq, Repr

/-- `price_whole_str.replace('.', '').replace(',', '')` from
`get_product_details`: replacing a single character by the empty string is
exactly filtering that character out, so the two chained `replace` calls
are two chained filters. -/
def stripSeps (s : String) : String :=
  String.mk ((s.data.filter (fun c => c != '.')).filter (fun c => c != ','))

/-- Numeric value of a digit character. -/
def digitVal (c : Char) : ℕ := c.toNat - 48

/-- Value of a digit string read left to right. -/
def digitsToNat (l : List Char) : ℕ := l.foldl (fun a c => 10 * a + digitVal c) 0

/-- Split a character list at the first `'.'`: the part before it, and
(when a dot occurs) the part after it. -/
def splitDot : List Char → List Char × Option (List Char)
  | [] => ([], none)
  | c :: r =>
      if c = '.' then ([], some r)
      else
        let p := splitDot r
        (c :: p.1, p.2)

/-- Modelled from Python `float()` semantics, restricted to the plain
decimal grammar relevant here: an optional sign, then digits with at most
one dot and at least one digit. Strings outside this core grammar
(exponents, underscores, `inf`/`nan`, surrounding whitespace) are treated
as unparsable (`none`); Python raises `ValueError` on unparsable input,
which `get_product_details` catches. -/
def pyFloat? (s : String) : Option ℚ :=
  let l := s.data
  let sb : Bool × List Char :=
    match l with
    | '-' :: r => (true, r)
    | '+' :: r => (false, r)
    | _ => (false, l)
  let ip := (splitDot sb.2).1
  let fpOpt := (splitDot sb.2).2
  let ok : Bool :=
    ip.all (fun c => c.isDigit) &&
      (match fpOpt with
       | none => !ip.isEmpty
       | some fp => fp.all (fun c => c.isDigit) && !(ip.isEmpty && fp.isEmpty))
  if ok then
    let mag : ℚ :=
      match fpOpt with
      | none => (digitsToNat ip : ℚ)
      | some fp => (digitsToNat ip : ℚ) + (digitsToNat fp : ℚ) / (10 : ℚ) ^ fp.length
    some (if sb.1 then -mag else mag)
  else none

/-- `get_product_details` from `src/app.py`: on fetch failure return the
sentinels `("N/A", 0.0)`; otherwise read the title (sentinel `"N/A"` when
the element is missing) and the two-part price: strip `'.'` and `','` from
the whole part, concatenate `f"{whole}.{fraction}"`, and parse with
`float` — any `AttributeError` (missing element) or `ValueError`
(unparsable) yields the sentinel price `0.0`. -/
def get_product_details (fetch : FetchResult) : String × ℚ :=
  match fetch with
  | FetchResult.failure => ("N/A", 0)
  | FetchResult.success page =>
    let product_name :=
      match page.productTitle with
      | some t => t
      | none => "N/A"
    let full_price : ℚ :=
      match page.priceWhole, page.priceFraction with
      | some w, some f =>
        match pyFloat? (stripSeps w ++ "." ++ f) with
        | some q => q
        | none => 0
      | _, _ => 0
    (product_name, full_price)

/-- Observable outcome of one `send_notification_email` call. -/
inductive EmailEvent where
  | skippedNoCreds (receiver : String)
  | sent (receiver : String)
  | failed (receiver : String)
deriving DecidableEq, Repr

/-- `send_notification_email` from `src/app.py`. The two credentials come
from the environment (`none` when unset); Python's
`not all([sender_email, password])` is also true when either is the empty
string, and then the function logs and returns without sending. The SMTP
block (`SMTP_SSL`/`login`/`sendmail`) outcome is `smtpResult`; any
exception it raises is caught and logged, so the function always returns
normally. -/
def send_notification_email (sender_email password : Option String)
    (smtpResult : Except String Unit) (receiver_email : String) : EmailEvent :=
  match sender_email, password with
  | some s, some p =>
    if s = "" || p = "" then EmailEvent.skippedNoCreds receiver_email
    else
      match smtpResult with
      | Except.ok _ => EmailEvent.sent receiver_email
      | Except.error _ => EmailEvent.failed receiver_email
  | _, _ => EmailEvent.skippedNoCreds receiver_email

/-- One observable step of `check_prices`: a notifier call, or the price
assignment plus `db.session.commit()` for one product. -/
inductive SweepEvent where
  | email (e : EmailEvent)
  | persistPrice (product_id : ℕ) (price : ℚ)
deriving DecidableEq, Repr

/-- The body of the `for product in products` loop of `check_prices` for
one product: re-fetch and re-extract; if `0 < new_price < product.price`,
email every subscription of the product in order and then persist the new
price; otherwise change nothing. `smtp` gives the transport outcome per
receiver. -/
def sweepOne (sender_email password : Option String)
    (smtp : String → Except String Unit) (subs : List Subscription)
    (fetch : String → FetchResult) (p : Product) : Product × List SweepEvent :=
  let new_price := (get_product_details (fetch p.url)).2
  if 0 < new_price ∧ new_price < p.price then
    ({ p with price := new_price },
      (subs.filter (fun s => s.product_id == p.id)).map
        (fun s => SweepEvent.email
          (send_notification_email sender_email password (smtp s.user_email) s.user_email))
        ++ [SweepEvent.persistPrice p.id new_price])
  else (p, [])

/-- `check_prices` from `src/app.py`: run `sweepOne` over every stored
product; subscriptions are never modified. Returns the new store and the
concatenated event trace. -/
def check_prices (db : DB) (fetch : String → FetchResult)
    (sender_email password : Option String)
    (smtp : String → Except String Unit) : DB × List SweepEvent :=
  let results := db.products.map (sweepOne sender_email password smtp db.subscriptions fetch)
  ({ db with products := results.map Prod.fst }, (results.map Prod.snd).flatten)

/-- The JSON body of a `/track` request: each key may be absent. A `none`
body models `request.get_json()` returning nothing (or an empty, falsy
dict, which also fails the key checks). -/
structure TrackData where
  product_url : Option String
  user_email : Option String
deriving DecidableEq, Repr

/-- The subscription half of `track_product`, after the product row is in
the session: look up an existing `(user_email, product_id)` subscription —
if present return 200 with no new row; otherwise add the subscription and
commit. On commit failure the session is rolled back, which also discards
any flushed-but-uncommitted product row, so the store reverts to `orig`.
A return before commit likewise leaves the persistent store at `orig`
(the request-scoped session is discarded without committing). -/
def trackSub (sess orig : DB) (product : Product) (user_email : String)
    (commitOk : Bool) : DB × ℕ :=
  match sess.subscriptions.find?
      (fun s => s.user_email == user_email && s.product_id == product.id) with
  | some _ => (orig, 200)
  | none =>
    let sid := maxId (sess.subscriptions.map Subscription.id) + 1
    let sess' := { sess with
      subscriptions := sess.subscriptions ++ [⟨sid, user_email, product.id⟩] }
    if commitOk then (sess', 201) else (orig, 500)

/-- `track_product` from `src/app.py` (`POST /track`): reject a body
missing either key (400); look up the product by URL; if absent, fetch
and extract now, reject sentinel results (`"N/A"` title or price `0.0`)
with 400 and persist nothing, otherwise add the product to the session
(`add` + `flush`); then delegate to the subscription half. `fetch` is the
outcome of the one fetch this request may perform; `commitOk` the outcome
of the one commit. Returns the resulting store and the HTTP status. -/
def track_product (db : DB) (data : Option TrackData) (fetch : FetchResult)
    (commitOk : Bool) : DB × ℕ :=
  match data with
  | none => (db, 400)
  | some d =>
    match d.product_url, d.user_email with
    | some product_url, some user_email =>
      match db.products.find? (fun p => p.url == product_url) with
      | some product => trackSub db db product user_email commitOk
      | none =>
        let td := get_product_details fetch
        if td.1 = "N/A" ∨ td.2 = 0 then (db, 400)
        else
          let pid := maxId (db.products.map Product.id) + 1
          let product : Product := ⟨pid, product_url, td.1, td.2⟩
          let db' : DB := { db with products := db.products ++ [product] }
          trackSub db' db product user_email commitOk
    | _, _ => (db, 400)

/-- Well-formedness guaranteed by the schema: every subscription's
`product_id` references an existing product (foreign key), and no two
subscription rows share the same `(user_email, product_id)` pair (the
`_user_product_uc` unique constraint). -/
def DB.WF (db : DB) : Prop :=
  (∀ s ∈ db.subscriptions, ∃ p ∈ db.products, p.id = s.product_id) ∧
    db.subscriptions.Pairwise
      (fun s₁ s₂ => s₁.user_email ≠ s₂.user_email ∨ s₁.product_id ≠ s₂.product_id)

/-- The product row `/track` resolves a URL to: the first stored product
with that URL. -/
def findProd (db : DB) (url : String) : Option Product :=
  db.products.find? (fun p => p.url == url)

/-- Number of subscription rows for the given email on the product stored
under the given URL (0 when no such product exists). -/
def subCount (db : DB) (url email : String) : ℕ :=
  match findProd db url with
  | some p =>
    (db.subscriptions.filter
      (fun s => s.user_email == email && s.product_id == p.id)).length
  | none => 0

/-! ## Helper lemmas -/

/-- Every element of a list is bounded by `maxId`. -/
theorem mem_le_maxId {x : ℕ} {l : List ℕ} (h : x ∈ l) : x ≤ maxId l := by
  induction l with
  | nil => cases h
  | cons a t ih =>
    rcases List.mem_cons.mp h with rfl | h
    · exact le_max_left _ _
    · exact le_trans (ih h) (le_max_right _ _)

/-! ## C5: the sentinel title -/

/-- C5 counterexample: on a page whose title element is absent, the
extractor returns `"N/A"`, not the claimed `"unknown title"`. -/
theorem title_sentinel_is_not_unknown_title :
    (get_product_details (FetchResult.success ⟨none, some "12", some "34"⟩)).1 = "N/A" ∧
      "N/A" ≠ "unknown title" := by
  exact ⟨rfl, by decide⟩

/-- C5 (amended): for every page content in which the fixed title element
identifier is absent, the extractor returns the sentinel title `"N/A"`. -/
theorem title_sentinel_na (page : Page) (h : page.productTitle = none) :
    (get_product_details (FetchResult.success page)).1 = "N/A" := by
  obtain ⟨t, w, f⟩ := page
  cases h
  rfl

/-- C5 witness: the amended theorem at a concrete page. -/
theorem title_sentinel_na_witness :
    (get_product_details (FetchResult.success ⟨none, some "1", some "2"⟩)).1 = "N/A" :=
  title_sentinel_na ⟨none, some "1", some "2"⟩ rfl

/-! ## C6: extraction failure degrades to the sentinel price -/

/-- C6: whenever the fetch fails, or either price element is missing, or
the assembled price string fails to parse, the pipeline returns the
sentinel price `0.0` (it returns a value in every case — no error is
raised to the caller). -/
theorem extractor_failure_sentinel_price (f : FetchResult)
    (h : f = FetchResult.failure ∨ ∃ page, f = FetchResult.success page ∧
      (page.priceWhole = none ∨ page.priceFraction = none ∨
        ∀ w fr, page.priceWhole = some w → page.priceFraction = some fr →
          pyFloat? (stripSeps w ++ "." ++ fr) = none)) :
    (get_product_details f).2 = 0 := by
  rcases h with rfl | ⟨page, rfl, h⟩
  · rfl
  · obtain ⟨t, w?, f?⟩ := page
    cases w? with
    | none => rfl
    | some w =>
      cases f? with
      | none => rfl
      | some fr =>
        rcases h with h | h | h
        · cases h
        · cases h
        · have hw := h w fr rfl rfl
          simp [get_product_details, hw]

/-- C6 witness: a fetch failure yields price 0, and a page with an
unparsable whole part yields price 0. -/
theorem extractor_failure_sentinel_price_witness :
    (get_product_details FetchResult.failure).2 = 0 ∧
      (get_product_details (FetchResult.success ⟨some "T", some "ab", some "1"⟩)).2 = 0 :=
  ⟨extractor_failure_sentinel_price FetchResult.failure (Or.inl rfl),
    extractor_failure_sentinel_price (FetchResult.success ⟨some "T", some "ab", some "1"⟩)
      (Or.inr ⟨⟨some "T", some "ab", some "1"⟩, rfl, Or.inr (Or.inr (by
        intro w fr hw hfr
        cases hw
        cases hfr
        decide))⟩)⟩

/-! ## C10: separator stripping in the whole part -/

/-- C10: the extractor strips every `'.'` and `','` from the whole-part
text (first conjunct, for every string), so whole `"1.234"` with fraction
`"56"` parses to `1234.56` (second conjunct); the fractional part is not
stripped, so a `','` there makes the parse fail to the sentinel `0.0`
(third conjunct). -/
theorem whole_part_separator_stripping :
    (∀ s : String, (stripSeps s).data.all (fun c => !(c == '.' || c == ',')) = true) ∧
      (get_product_details (FetchResult.success ⟨some "T", some "1.234", some "56"⟩)).2 =
        123456 / 100 ∧
      (get_product_details (FetchResult.success ⟨some "T", some "12", some "3,4"⟩)).2 = 0 := by
  refine ⟨?_, by
    simp +decide [get_product_details, pyFloat?, stripSeps, splitDot, digitsToNat, digitVal]
    norm_num, by
    simp +decide [get_product_details, pyFloat?, stripSeps, splitDot, digitsToNat, digitVal]⟩
  intro s
  rw [List.all_eq_true]
  intro c hc
  have h₂ := List.of_mem_filter hc
  have h₁ := List.of_mem_filter (List.mem_of_mem_filter hc)
  simp only [bne_iff_ne, ne_eq] at h₁ h₂
  simp [h₁, h₂]

/-! ## Shared sample data for witnesses -/

/-- A sample page whose extraction succeeds: title `"T"`, price `45.99`. -/
theorem get_sample_page :
    get_product_details (FetchResult.success ⟨some "T", some "45", some "99"⟩) =
      ("T", 4599 / 100) := by
  simp +decide [get_product_details, pyFloat?, stripSeps, splitDot, digitsToNat, digitVal]
  norm_num

/-! ## C3: sentinel extraction on a new URL persists nothing -/

/-- C3: a track request for a URL with no stored product whose immediate
fetch+extract yields the sentinel title or the sentinel price 0.0 returns
400 and leaves the store exactly as it was: no product row and no
subscription row is created. -/
theorem track_sentinel_rejected (db : DB) (url email : String) (fetch : FetchResult)
    (commitOk : Bool) (hurl : findProd db url = none)
    (hsent : (get_product_details fetch).1 = "N/A" ∨ (get_product_details fetch).2 = 0) :
    track_product db (some ⟨some url, some email⟩) fetch commitOk = (db, 400) := by
  unfold track_product
  simp only [findProd] at hurl
  simp only [hurl]
  exact if_pos hsent

/-- C3 witness: an empty store and a failing fetch give a 400 with the
store unchanged. -/
theorem track_sentinel_rejected_witness :
    findProd ⟨[], []⟩ "u" = none ∧
      (get_product_details FetchResult.failure).2 = 0 ∧
      track_product ⟨[], []⟩ (some ⟨some "u", some "e"⟩) FetchResult.failure true =
        (⟨[], []⟩, 400) :=
  ⟨rfl, rfl,
    track_sentinel_rejected ⟨[], []⟩ "u" "e" FetchResult.failure true rfl (Or.inr rfl)⟩

/-! ## C7: commit failure on `/track` rolls back -/

/-- C7: whenever a track request would reach and pass the final commit
(the same request with a successful commit returns 201), the request with
a failing commit rolls the session back: it returns 500 and leaves the
store unchanged. -/
theorem track_commit_failure_rolls_back (db : DB) (data : Option TrackData)
    (fetch : FetchResult) (h : (track_product db data fetch true).2 = 201) :
    track_product db data fetch false = (db, 500) := by
  rcases data with _ | ⟨u?, e?⟩
  · simp [track_product] at h
  · rcases u? with _ | url
    · simp [track_product] at h
    · rcases e? with _ | email
      · simp [track_product] at h
      · unfold track_product at h ⊢
        cases hfind : db.products.find? (fun p => p.url == url) with
        | some q =>
          simp only [hfind] at h ⊢
          unfold trackSub at h ⊢
          cases hsub : db.subscriptions.find?
              (fun s => s.user_email == email && s.product_id == q.id) with
          | some s => simp [hsub] at h
          | none => simp [hsub]
        | none =>
          simp only [hfind] at h ⊢
          by_cases hg : (get_product_details fetch).1 = "N/A" ∨
              (get_product_details fetch).2 = 0
          · rw [if_pos hg] at h
            simp at h
          · rw [if_neg hg] at h ⊢
            unfold trackSub at h ⊢
            cases hsub : db.subscriptions.find? (fun s =>
                s.user_email == email &&
                  s.product_id == maxId (db.products.map Product.id) + 1) with
            | some s => simp [hsub] at h
            | none => simp [hsub]

/-- C7 witness: a request that would succeed with 201 returns `(db, 500)`
when the commit fails. -/
theorem track_commit_failure_rolls_back_witness :
    (track_product ⟨[], []⟩ (some ⟨some "u", some "e"⟩)
        (FetchResult.success ⟨some "T", some "45", some "99"⟩) true).2 = 201 ∧
      track_product ⟨[], []⟩ (some ⟨some "u", some "e"⟩)
        (FetchResult.success ⟨some "T", some "45", some "99"⟩) false =
        (⟨[], []⟩, 500) := by
  have h : (track_product ⟨[], []⟩ (some ⟨some "u", some "e"⟩)
      (FetchResult.success ⟨some "T", some "45", some "99"⟩) true).2 = 201 := by
    simp +decide [track_product, trackSub, get_sample_page, maxId]
  exact ⟨h, track_commit_failure_rolls_back _ _ _ h⟩

/-! ## C9: positivity of persisted prices -/

/-- C9 counterexample: the track endpoint only rejects an extracted price
equal to 0.0, so a page whose whole-part text carries a minus sign
persists a product with the negative price `-1.50` — the stored price is
not strictly positive. -/
theorem track_persists_nonpositive_price :
    (track_product ⟨[], []⟩ (some ⟨some "u", some "a@b"⟩)
        (FetchResult.success ⟨some "T", some "-1", some "50"⟩) true).1.products =
      [⟨1, "u", "T", -(3 / 2)⟩] ∧ ¬ (0 < (-(3 / 2) : ℚ)) := by
  have hgp : get_product_details (FetchResult.success ⟨some "T", some "-1", some "50"⟩) =
      ("T", -(3 / 2)) := by
    simp +decide [get_product_details, pyFloat?, stripSeps, splitDot, digitsToNat, digitVal]
    norm_num
  constructor
  · simp +decide [track_product, trackSub, hgp, maxId]
  · norm_num

/-- Shape of the product table after a track request: it is unchanged, or
exactly one product with a nonzero price was appended. -/
theorem track_products_shape (db : DB) (data : Option TrackData)
    (fetch : FetchResult) (commitOk : Bool) :
    (track_product db data fetch commitOk).1.products = db.products ∨
      ∃ q, q.price ≠ 0 ∧
        (track_product db data fetch commitOk).1.products = db.products ++ [q] := by
  rcases data with _ | ⟨u?, e?⟩
  · exact Or.inl rfl
  · rcases u? with _ | url
    · exact Or.inl rfl
    · rcases e? with _ | email
      · exact Or.inl rfl
      · unfold track_product
        cases hfind : db.products.find? (fun p => p.url == url) with
        | some q =>
          simp only [hfind]
          unfold trackSub
          cases hsub : db.subscriptions.find?
              (fun s => s.user_email == email && s.product_id == q.id) with
          | some s => exact Or.inl rfl
          | none =>
            simp only [hsub]
            cases commitOk <;> exact Or.inl rfl
        | none =>
          simp only [hfind]
          by_cases hg : (get_product_details fetch).1 = "N/A" ∨
              (get_product_details fetch).2 = 0
          · rw [if_pos hg]
            exact Or.inl rfl
          · rw [if_neg hg]
            unfold trackSub
            cases hsub : db.subscriptions.find? (fun s =>
                s.user_email == email &&
                  s.product_id == maxId (db.products.map Product.id) + 1) with
            | some s => simp [hsub]
            | none =>
              simp only [hsub]
              cases commitOk
              · exact Or.inl rfl
              · refine Or.inr ⟨_, fun hz => hg (Or.inr hz), rfl⟩

/-- The sweep either leaves a product's price alone or sets it to a
strictly positive value. -/
theorem sweepOne_price_pos_or_same (se pw : Option String)
    (smtp : String → Except String Unit) (subs : List Subscription)
    (fetch : String → FetchResult) (q : Product) :
    (sweepOne se pw smtp subs fetch q).1.price = q.price ∨
      0 < (sweepOne se pw smtp subs fetch q).1.price := by
  unfold sweepOne
  by_cases h : 0 < (get_product_details (fetch q.url)).2 ∧
      (get_product_details (fetch q.url)).2 < q.price
  · rw [if_pos h]
    exact Or.inr h.1
  · rw [if_neg h]
    exact Or.inl rfl

/-- C9 (amended): if every stored product has a nonzero price, the store
after any track request and the store after any sweep still have only
nonzero prices — the track endpoint rejects an extracted price of exactly
0.0 before persisting, and the Sweep only writes strictly positive
prices. (Strict positivity of every persisted price does not hold: see
the counterexample.) -/
theorem persisted_price_nonzero (db : DB) (data : Option TrackData)
    (fetch : FetchResult) (commitOk : Bool) (fetch2 : String → FetchResult)
    (se pw : Option String) (smtp : String → Except String Unit)
    (h : ∀ p ∈ db.products, p.price ≠ 0) :
    (∀ p ∈ (track_product db data fetch commitOk).1.products, p.price ≠ 0) ∧
      (∀ p ∈ (check_prices db fetch2 se pw smtp).1.products, p.price ≠ 0) := by
  constructor
  · intro p hp
    rcases track_products_shape db data fetch commitOk with hs | ⟨q, hq, hs⟩
    · exact h p (hs ▸ hp)
    · rw [hs] at hp
      rcases List.mem_append.mp hp with hp | hp
      · exact h p hp
      · rcases List.mem_singleton.mp hp with rfl
        exact hq
  · intro p hp
    unfold check_prices at hp
    simp only [List.map_map, List.mem_map] at hp
    obtain ⟨q, hq, rfl⟩ := hp
    rcases sweepOne_price_pos_or_same se pw smtp db.subscriptions fetch2 q with hs | hs
    · rw [Function.comp_apply, hs]
      exact h q hq
    · rw [Function.comp_apply]
      exact ne_of_gt hs

/-- C9 witness: the amended invariant applied to the empty store. -/
theorem persisted_price_nonzero_witness :
    (∀ p ∈ (track_product ⟨[], []⟩ (some ⟨some "u", some "e"⟩)
        FetchResult.failure true).1.products, p.price ≠ 0) ∧
      (∀ p ∈ (check_prices ⟨[], []⟩ (fun _ => FetchResult.failure) none none
        (fun _ => Except.ok ())).1.products, p.price ≠ 0) :=
  persisted_price_nonzero ⟨[], []⟩ (some ⟨some "u", some "e"⟩) FetchResult.failure true
    (fun _ => FetchResult.failure) none none (fun _ => Except.ok ())
    (fun p hp => absurd hp (List.not_mem_nil p))

/-! ## C8: the notifier never blocks the sweep -/

/-- C8: the notifier never raises to its caller. With a missing sender
address or sender secret it no-ops (first two conjuncts); a transport
error is caught and the call still returns normally (third conjunct); and
for arbitrary credentials and arbitrary per-receiver transport outcomes, a
price drop still updates the product's price and still produces exactly
one notifier call per subscription of the product, followed by the price
persist (last two conjuncts) — one subscriber's failed email blocks
neither the other notifications nor the persist. -/
theorem notifier_never_blocks (se pw : Option String)
    (smtp : String → Except String Unit) (subs : List Subscription)
    (fetch : String → FetchResult) (p : Product)
    (h1 : 0 < (get_product_details (fetch p.url)).2)
    (h2 : (get_product_details (fetch p.url)).2 < p.price) :
    (∀ r out, send_notification_email none pw out r = EmailEvent.skippedNoCreds r) ∧
      (∀ r out s, send_notification_email (some s) none out r =
        EmailEvent.skippedNoCreds r) ∧
      (∀ r m s c, s ≠ "" → c ≠ "" →
        send_notification_email (some s) (some c) (Except.error m) r =
          EmailEvent.failed r) ∧
      (sweepOne se pw smtp subs fetch p).1.price =
        (get_product_details (fetch p.url)).2 ∧
      (sweepOne se pw smtp subs fetch p).2 =
        (subs.filter (fun s => s.product_id == p.id)).map
          (fun s => SweepEvent.email
            (send_notification_email se pw (smtp s.user_email) s.user_email)) ++
          [SweepEvent.persistPrice p.id (get_product_details (fetch p.url)).2] := by
  refine ⟨?_, ?_, ?_, ?_, ?_⟩
  · intro r out
    cases pw <;> rfl
  · intro r out s
    rfl
  · intro r m s c hs hc
    simp [send_notification_email, hs, hc]
  · unfold sweepOne
    rw [if_pos ⟨h1, h2⟩]
  · unfold sweepOne
    rw [if_pos ⟨h1, h2⟩]

/-- C8 witness: the notifier facts and the sweep behaviour at a concrete
drop, with one failing and one succeeding receiver. -/
theorem notifier_never_blocks_witness :
    0 < (get_product_details ((fun _ => FetchResult.success
        ⟨some "T", some "45", some "99"⟩) "u")).2 ∧
      (get_product_details ((fun _ => FetchResult.success
        ⟨some "T", some "45", some "99"⟩) "u")).2 < (⟨1, "u", "T", 50⟩ : Product).price ∧
      (sweepOne (some "s@e") (some "pw")
        (fun r => if r = "a@b" then Except.error "auth" else Except.ok ())
        [⟨1, "a@b", 1⟩, ⟨2, "c@d", 1⟩]
        (fun _ => FetchResult.success ⟨some "T", some "45", some "99"⟩)
        ⟨1, "u", "T", 50⟩).1.price =
        (get_product_details ((fun _ => FetchResult.success
          ⟨some "T", some "45", some "99"⟩) "u")).2 := by
  have h1 : 0 < (get_product_details ((fun _ => FetchResult.success
      ⟨some "T", some "45", some "99"⟩) "u")).2 := by
    norm_num [get_sample_page]
  have h2 : (get_product_details ((fun _ => FetchResult.success
      ⟨some "T", some "45", some "99"⟩) "u")).2 <
      (⟨1, "u", "T", 50⟩ : Product).price := by
    norm_num [get_sample_page]
  exact ⟨h1, h2,
    (notifier_never_blocks (some "s@e") (some "pw")
      (fun r => if r = "a@b" then Except.error "auth" else Except.ok ())
      [⟨1, "a@b", 1⟩, ⟨2, "c@d", 1⟩]
      (fun _ => FetchResult.success ⟨some "T", some "45", some "99"⟩)
      ⟨1, "u", "T", 50⟩ h1 h2).2.2.2.1⟩

/-! ## C2: no drop, no change -/

/-- C2: when the re-extracted price is 0 (extraction failure) or at least
the stored price, the sweep leaves that product and all subscriptions
unchanged and emits no event for it: the product's loop iteration yields
`(p, [])`, the store keeps `p` as is, the subscription table is returned
unchanged, and the sweep trace contains only the other products'
events. -/
theorem sweep_no_drop_no_change (se pw : Option String)
    (smtp : String → Except String Unit) (subsAll : List Subscription)
    (fetch : String → FetchResult) (ps₁ ps₂ : List Product) (p : Product)
    (h : (get_product_details (fetch p.url)).2 = 0 ∨
      p.price ≤ (get_product_details (fetch p.url)).2) :
    sweepOne se pw smtp subsAll fetch p = (p, []) ∧
      (check_prices ⟨ps₁ ++ p :: ps₂, subsAll⟩ fetch se pw smtp).1.products =
        ps₁.map (fun q => (sweepOne se pw smtp subsAll fetch q).1) ++ p ::
          ps₂.map (fun q => (sweepOne se pw smtp subsAll fetch q).1) ∧
      (check_prices ⟨ps₁ ++ p :: ps₂, subsAll⟩ fetch se pw smtp).1.subscriptions =
        subsAll ∧
      (check_prices ⟨ps₁ ++ p :: ps₂, subsAll⟩ fetch se pw smtp).2 =
        (ps₁.map (fun q => (sweepOne se pw smtp subsAll fetch q).2)).flatten ++
          (ps₂.map (fun q => (sweepOne se pw smtp subsAll fetch q).2)).flatten := by
  have hcond : ¬ (0 < (get_product_details (fetch p.url)).2 ∧
      (get_product_details (fetch p.url)).2 < p.price) := by
    rintro ⟨hpos, hlt⟩
    rcases h with h | h
    · rw [h] at hpos
      exact lt_irrefl 0 hpos
    · exact absurd hlt (not_lt.mpr h)
  have h1 : sweepOne se pw smtp subsAll fetch p = (p, []) := by
    unfold sweepOne
    rw [if_neg hcond]
  refine ⟨h1, ?_, rfl, ?_⟩
  · simp [check_prices, h1, Function.comp_def]
  · simp [check_prices, h1, Function.comp_def]

/-- C2 witness: a fetch failure (sentinel price 0) leaves a one-product
store untouched. -/
theorem sweep_no_drop_no_change_witness :
    ((get_product_details ((fun _ => FetchResult.failure) "u")).2 = 0 ∨
      (⟨1, "u", "T", 50⟩ : Product).price ≤
        (get_product_details ((fun _ => FetchResult.failure) "u")).2) ∧
      sweepOne none none (fun _ => Except.ok ()) [⟨1, "a@b", 1⟩]
        (fun _ => FetchResult.failure) ⟨1, "u", "T", 50⟩ = (⟨1, "u", "T", 50⟩, []) :=
  ⟨Or.inl rfl,
    (sweep_no_drop_no_change none none (fun _ => Except.ok ()) [⟨1, "a@b", 1⟩]
      (fun _ => FetchResult.failure) [] [] ⟨1, "u", "T", 50⟩ (Or.inl rfl)).1⟩

/-! ## C1: price drop notifies every subscriber, then persists -/

/-- C1: when the re-extracted price is strictly positive and strictly
below the stored price, and the credentials are set and the transport
succeeds, the sweep iteration for that product sends exactly one email
per subscription of the product, in stored order, and persists the new
price only after all of them (the persist event follows every email
event); in the full sweep the product's row carries the new price, the
subscription table is unchanged, and the trace around this product's
segment is exactly the other products' events. -/
theorem sweep_drop_notify_then_persist (e c : String)
    (smtp : String → Except String Unit) (subsAll : List Subscription)
    (fetch : String → FetchResult) (ps₁ ps₂ : List Product) (p : Product)
    (he : e ≠ "") (hc : c ≠ "") (hsmtp : ∀ r, smtp r = Except.ok ())
    (h1 : 0 < (get_product_details (fetch p.url)).2)
    (h2 : (get_product_details (fetch p.url)).2 < p.price) :
    sweepOne (some e) (some c) smtp subsAll fetch p =
      ({ p with price := (get_product_details (fetch p.url)).2 },
        (subsAll.filter (fun s => s.product_id == p.id)).map
          (fun s => SweepEvent.email (EmailEvent.sent s.user_email)) ++
          [SweepEvent.persistPrice p.id (get_product_details (fetch p.url)).2]) ∧
      (check_prices ⟨ps₁ ++ p :: ps₂, subsAll⟩ fetch (some e) (some c) smtp).1.products =
        ps₁.map (fun q => (sweepOne (some e) (some c) smtp subsAll fetch q).1) ++
          { p with price := (get_product_details (fetch p.url)).2 } ::
          ps₂.map (fun q => (sweepOne (some e) (some c) smtp subsAll fetch q).1) ∧
      (check_prices ⟨ps₁ ++ p :: ps₂, subsAll⟩ fetch (some e) (some c)
        smtp).1.subscriptions = subsAll ∧
      (check_prices ⟨ps₁ ++ p :: ps₂, subsAll⟩ fetch (some e) (some c) smtp).2 =
        (ps₁.map (fun q => (sweepOne (some e) (some c) smtp subsAll fetch q).2)).flatten
          ++ ((subsAll.filter (fun s => s.product_id == p.id)).map
            (fun s => SweepEvent.email (EmailEvent.sent s.user_email)) ++
            [SweepEvent.persistPrice p.id (get_product_details (fetch p.url)).2])
          ++ (ps₂.map
            (fun q => (sweepOne (some e) (some c) smtp subsAll fetch q).2)).flatten := by
  have hsend : ∀ r, send_notification_email (some e) (some c) (smtp r) r =
      EmailEvent.sent r := by
    intro r
    rw [hsmtp r]
    simp [send_notification_email, he, hc]
  have hone : sweepOne (some e) (some c) smtp subsAll fetch p =
      ({ p with price := (get_product_details (fetch p.url)).2 },
        (subsAll.filter (fun s => s.product_id == p.id)).map
          (fun s => SweepEvent.email (EmailEvent.sent s.user_email)) ++
          [SweepEvent.persistPrice p.id (get_product_details (fetch p.url)).2]) := by
    unfold sweepOne
    rw [if_pos ⟨h1, h2⟩]
    refine congrArg _ (congrArg (· ++ _) (List.map_congr_left ?_))
    intro s _
    rw [hsend s.user_email]
  refine ⟨hone, ?_, rfl, ?_⟩
  · simp [check_prices, hone, Function.comp_def]
  · simp [check_prices, hone, Function.comp_def]

/-- C1 witness: a €50.00 product observed at €45.99 with two subscribers
gives the two emails followed by the persist. -/
theorem sweep_drop_notify_then_persist_witness :
    ("s@e" : String) ≠ "" ∧
      sweepOne (some "s@e") (some "pw") (fun _ => Except.ok ())
        [⟨1, "a@b", 1⟩, ⟨2, "c@d", 1⟩]
        (fun _ => FetchResult.success ⟨some "T", some "45", some "99"⟩)
        ⟨1, "u", "T", 50⟩ =
        (⟨1, "u", "T", (get_product_details ((fun _ => FetchResult.success
            ⟨some "T", some "45", some "99"⟩) "u")).2⟩,
          [SweepEvent.email (EmailEvent.sent "a@b"),
            SweepEvent.email (EmailEvent.sent "c@d"),
            SweepEvent.persistPrice 1 (get_product_details ((fun _ =>
              FetchResult.success ⟨some "T", some "45", some "99"⟩) "u")).2]) := by
  have h1 : 0 < (get_product_details ((fun _ => FetchResult.success
      ⟨some "T", some "45", some "99"⟩) "u")).2 := by
    norm_num [get_sample_page]
  have h2 : (get_product_details ((fun _ => FetchResult.success
      ⟨some "T", some "45", some "99"⟩) "u")).2 <
      (⟨1, "u", "T", 50⟩ : Product).price := by
    norm_num [get_sample_page]
  refine ⟨by decide, ?_⟩
  have h := (sweep_drop_notify_then_persist "s@e" "pw" (fun _ => Except.ok ())
    [⟨1, "a@b", 1⟩, ⟨2, "c@d", 1⟩]
    (fun _ => FetchResult.success ⟨some "T", some "45", some "99"⟩) [] []
    ⟨1, "u", "T", 50⟩ (by decide) (by decide) (fun r => rfl) h1 h2).1
  rw [h]
  rfl

/-! ## C4: tracking twice is idempotent -/

/-- Under the `(user_email, product_id)` unique constraint, a pair that
occurs in the subscription table occurs exactly once. -/
theorem filter_pair_length_one (l : List Subscription) (email : String) (pid : ℕ)
    (hpw : l.Pairwise
      (fun s₁ s₂ => s₁.user_email ≠ s₂.user_email ∨ s₁.product_id ≠ s₂.product_id))
    (s₀ : Subscription) (hmem : s₀ ∈ l) (he : s₀.user_email = email)
    (hpid : s₀.product_id = pid) :
    (l.filter (fun s => s.user_email == email && s.product_id == pid)).length = 1 := by
  have hmemf : s₀ ∈ l.filter (fun s => s.user_email == email && s.product_id == pid) :=
    List.mem_filter.mpr ⟨hmem, by simp [he, hpid]⟩
  have hpwf : (l.filter (fun s => s.user_email == email &&
      s.product_id == pid)).Pairwise
      (fun s₁ s₂ => s₁.user_email ≠ s₂.user_email ∨ s₁.product_id ≠ s₂.product_id) :=
    List.Pairwise.sublist (List.filter_sublist l) hpw
  cases hfl : l.filter (fun s => s.user_email == email && s.product_id == pid) with
  | nil =>
    rw [hfl] at hmemf
    cases hmemf
  | cons a t =>
    cases t with
    | nil => rfl
    | cons b t' =>
      exfalso
      rw [hfl] at hpwf
      have hab := (List.pairwise_cons.mp hpwf).1 b (List.mem_cons_self b t')
      have ha : a ∈ l.filter (fun s => s.user_email == email &&
          s.product_id == pid) := by
        rw [hfl]
        exact List.mem_cons_self a _
      have hb : b ∈ l.filter (fun s => s.user_email == email &&
          s.product_id == pid) := by
        rw [hfl]
        exact List.mem_cons_of_mem a (List.mem_cons_self b t')
      have ha' := (List.mem_filter.mp ha).2
      have hb' := (List.mem_filter.mp hb).2
      simp only [Bool.and_eq_true, beq_iff_eq] at ha' hb'
      rcases hab with h | h
      · exact h (ha'.1.trans hb'.1.symm)
      · exact h (ha'.2.trans hb'.2.symm)

/-- C4: submitting the same `(product_url, user_email)` track request
twice (with successful extraction and commits) gives a non-error response
both times, the second request returns 200 and changes nothing, and the
store holds exactly one subscription row for that email on the product
stored under that URL. -/
theorem track_twice_one_subscription (db : DB) (url email : String)
    (fetch : FetchResult) (hwf : db.WF)
    (ht : (get_product_details fetch).1 ≠ "N/A")
    (hq : (get_product_details fetch).2 ≠ 0) :
    ((track_product db (some ⟨some url, some email⟩) fetch true).2 = 200 ∨
      (track_product db (some ⟨some url, some email⟩) fetch true).2 = 201) ∧
      (track_product (track_product db (some ⟨some url, some email⟩) fetch true).1
        (some ⟨some url, some email⟩) fetch true).2 = 200 ∧
      (track_product (track_product db (some ⟨some url, some email⟩) fetch true).1
        (some ⟨some url, some email⟩) fetch true).1 =
        (track_product db (some ⟨some url, some email⟩) fetch true).1 ∧
      subCount (track_product db (some ⟨some url, some email⟩) fetch true).1
        url email = 1 := by
  cases hfind : db.products.find? (fun p => p.url == url) with
  | some q =>
    have hqmatch := List.find?_some hfind
    rw [beq_iff_eq] at hqmatch
    cases hsub : db.subscriptions.find?
        (fun s => s.user_email == email && s.product_id == q.id) with
    | some s₀ =>
      have hs₀ := List.find?_some hsub
      simp only [Bool.and_eq_true, beq_iff_eq] at hs₀
      have e₁ : track_product db (some ⟨some url, some email⟩) fetch true =
          (db, 200) := by
        unfold track_product trackSub
        simp only [hfind, hsub]
      rw [e₁]
      refine ⟨Or.inl rfl, ?_, ?_, ?_⟩
      · rw [e₁]
      · rw [e₁]
      · unfold subCount findProd
        simp only [hfind]
        exact filter_pair_length_one db.subscriptions email q.id hwf.2 s₀
          (List.mem_of_find?_eq_some hsub) hs₀.1 hs₀.2
    | none =>
      have e₁ : track_product db (some ⟨some url, some email⟩) fetch true =
          (⟨db.products, db.subscriptions ++
            [⟨maxId (db.subscriptions.map Subscription.id) + 1, email, q.id⟩]⟩,
            201) := by
        unfold track_product trackSub
        simp only [hfind, hsub]
        rw [if_pos trivial]
      rw [e₁]
      have e₂ : track_product (⟨db.products, db.subscriptions ++
          [⟨maxId (db.subscriptions.map Subscription.id) + 1, email, q.id⟩]⟩ : DB)
          (some ⟨some url, some email⟩) fetch true =
          (⟨db.products, db.subscriptions ++
            [⟨maxId (db.subscriptions.map Subscription.id) + 1, email, q.id⟩]⟩,
            200) := by
        unfold track_product trackSub
        simp only [hfind, List.find?_append, hsub, Option.none_or]
        rw [List.find?_cons_of_pos _ (by simp)]
      refine ⟨Or.inr rfl, ?_, ?_, ?_⟩
      · rw [e₂]
      · rw [e₂]
      · unfold subCount findProd
        simp only [hfind, List.filter_append]
        rw [List.filter_eq_nil_iff.mpr (List.find?_eq_none.mp hsub),
          List.filter_cons_of_pos (by simp)]
        rfl
  | none =>
    have hguard : ¬ ((get_product_details fetch).1 = "N/A" ∨
        (get_product_details fetch).2 = 0) := fun h => h.elim ht hq
    have hsubnone : db.subscriptions.find? (fun s => s.user_email == email &&
        s.product_id == maxId (db.products.map Product.id) + 1) = none := by
      rw [List.find?_eq_none]
      intro s hs hpred
      simp only [Bool.and_eq_true, beq_iff_eq] at hpred
      obtain ⟨pr, hpr, hpr2⟩ := hwf.1 s hs
      have hle : pr.id ≤ maxId (db.products.map Product.id) :=
        mem_le_maxId (List.mem_map_of_mem Product.id hpr)
      omega
    have e₁ : track_product db (some ⟨some url, some email⟩) fetch true =
        (⟨db.products ++ [⟨maxId (db.products.map Product.id) + 1, url,
          (get_product_details fetch).1, (get_product_details fetch).2⟩],
          db.subscriptions ++
            [⟨maxId (db.subscriptions.map Subscription.id) + 1, email,
              maxId (db.products.map Product.id) + 1⟩]⟩, 201) := by
      unfold track_product trackSub
      simp only [hfind]
      rw [if_neg hguard]
      simp only [hsubnone]
      rw [if_pos trivial]
    rw [e₁]
    have hfind₂ : (db.products ++ [(⟨maxId (db.products.map Product.id) + 1, url,
        (get_product_details fetch).1, (get_product_details fetch).2⟩ : Product)]).find?
        (fun p => p.url == url) =
        some ⟨maxId (db.products.map Product.id) + 1, url,
          (get_product_details fetch).1, (get_product_details fetch).2⟩ := by
      rw [List.find?_append, hfind, Option.none_or,
        List.find?_cons_of_pos _ (by simp)]
    have e₂ : track_product (⟨db.products ++
        [⟨maxId (db.products.map Product.id) + 1, url,
          (get_product_details fetch).1, (get_product_details fetch).2⟩],
        db.subscriptions ++
          [⟨maxId (db.subscriptions.map Subscription.id) + 1, email,
            maxId (db.products.map Product.id) + 1⟩]⟩ : DB)
        (some ⟨some url, some email⟩) fetch true =
        (⟨db.products ++ [⟨maxId (db.products.map Product.id) + 1, url,
          (get_product_details fetch).1, (get_product_details fetch).2⟩],
          db.subscriptions ++
            [⟨maxId (db.subscriptions.map Subscription.id) + 1, email,
              maxId (db.products.map Product.id) + 1⟩]⟩, 200) := by
      unfold track_product trackSub
      simp only [hfind₂, List.find?_append, hsubnone, Option.none_or]
      rw [List.find?_cons_of_pos _ (by simp)]
    refine ⟨Or.inr rfl, ?_, ?_, ?_⟩
    · rw [e₂]
    · rw [e₂]
    · unfold subCount findProd
      simp only [hfind₂, List.filter_append]
      rw [List.filter_eq_nil_iff.mpr (List.find?_eq_none.mp hsubnone),
        List.filter_cons_of_pos (by simp)]
      rfl

/-- C4 witness: tracking `("u", "a@b")` twice on an empty store. -/
theorem track_twice_one_subscription_witness :
    DB.WF ⟨[], []⟩ ∧
      subCount (track_product ⟨[], []⟩ (some ⟨some "u", some "a@b"⟩)
        (FetchResult.success ⟨some "T", some "45", some "99"⟩) true).1 "u" "a@b" = 1 := by
  have hwf : DB.WF ⟨[], []⟩ :=
    ⟨fun s hs => absurd hs (List.not_mem_nil s), List.Pairwise.nil⟩
  refine ⟨hwf, ?_⟩
  have ht : (get_product_details (FetchResult.success
      ⟨some "T", some "45", some "99"⟩)).1 ≠ "N/A" := by
    rw [get_sample_page]
    decide
  have hq : (get_product_details (FetchResult.success
      ⟨some "T", some "45", some "99"⟩)).2 ≠ 0 := by
    rw [get_sample_page]
    norm_num
  exact (track_twice_one_subscription ⟨[], []⟩ "u" "a@b"
    (FetchResult.success ⟨some "T", some "45", some "99"⟩) hwf ht hq).2.2.2

end DealRelay
